import Mathlib

/-!
Verification of the streaming Goertzel tone-power estimator in
`src/src/main.rs` (`struct Goertzel`, `Goertzel::new`, `Goertzel::filter`).

Embedding conventions:
* `f32` values are modelled as real numbers (`ℝ`); the definitions below are
  kept generic over a field `α` together with the cosine intrinsic
  `cosf : α → α`, and the program itself is the instance `α = ℝ`,
  `cosf = Real.cos`.  The `f32` literals `3.13` and `1e-7` are modelled by the
  exact rationals `313/100` and `1/10000000`.
* The `i32` counters `n_total` and `n[_]` start at `0` and are only ever
  incremented or reset to `0`, so they are modelled as `ℕ`
  (no-overflow idealization); `active: usize` is likewise `ℕ`.
* The two-element arrays `[f32; 2]` and `[i32; 2]` are modelled as functions
  out of `ℕ`; the code only ever uses the indices `0` and `1`
  (`active` and `1 - active` with `active ∈ {0, 1}`).
-/

/-- The mutable state of `struct Goertzel` from `src/src/main.rs`, field for
field, over a numeric type `α` standing for `f32`. -/
structure Goertzel (α : Type) where
  s_prev : ℕ → α
  s_prev2 : ℕ → α
  totalpower : ℕ → α
  freq : α
  samplef : α
  n_total : ℕ
  double : α
  power : α
  s : α
  active : ℕ
  n : ℕ → ℕ

/-- Constructor `Goertzel::new(freq, samplef)`: all numeric state zero, parameters
stored.  The Rust constructor performs no validation and has no error
path (its return type is `Self`). -/
def Goertzel.new {α : Type} [Field α] (freq samplef : α) : Goertzel α where
  s_prev := fun _ => 0
  s_prev2 := fun _ => 0
  totalpower := fun _ => 0
  freq := freq
  samplef := samplef
  n_total := 0
  double := 0
  power := 0
  s := 0
  active := 0
  n := fun _ => 0

/-- The resonator coefficient computed at the top of `Goertzel::filter`:
`let normalizedfreq = freq/samplef; let coeff = 2.*(2.*3.13*normalizedfreq).cos()`.
Note the source literal is `3.13` (not π), modelled exactly as `313/100`. -/
def coeffOf {α : Type} [Field α] (cosf : α → α) (freq samplef : α) : α :=
  2 * cosf (2 * (313 / 100) * (freq / samplef))

/-- Method `Goertzel::filter(&mut self, sample) -> f32`, as a pure function from the
pre-state and the sample to the post-state and the returned power value.
The statement sequence of the Rust body is mirrored step by step:
slot-0 recursion, slot-1 recursion, counter increments, recomputation of
`active`, conditional reset of the stale slot `activen = 1 - active`,
energy accumulation into both slots, and the normalized power of the
active slot. -/
def Goertzel.filter {α : Type} [Field α] (cosf : α → α) (g : Goertzel α)
    (sample : α) : Goertzel α × α :=
  let coeff := coeffOf cosf g.freq g.samplef
  let s0 := sample + coeff * g.s_prev 0 - g.s_prev2 0
  let sp2a := Function.update g.s_prev2 0 (g.s_prev 0)
  let spa := Function.update g.s_prev 0 s0
  let na := Function.update g.n 0 (g.n 0 + 1)
  let s1 := sample + coeff * spa 1 - sp2a 1
  let sp2b := Function.update sp2a 1 (spa 1)
  let spb := Function.update spa 1 s1
  let nb := Function.update na 1 (na 1 + 1)
  let n_total := g.n_total + 1
  let active := (n_total / 1000) &&& 1
  let activen := 1 - active
  let spc := if 1000 ≤ nb activen then Function.update spb activen 0 else spb
  let sp2c := if 1000 ≤ nb activen then Function.update sp2b activen 0 else sp2b
  let tpa := if 1000 ≤ nb activen then Function.update g.totalpower activen 0
    else g.totalpower
  let nc := if 1000 ≤ nb activen then Function.update nb activen 0 else nb
  let tpb := Function.update tpa 0 (tpa 0 + sample * sample)
  let tpc := Function.update tpb 1 (tpb 1 + sample * sample)
  let power := sp2c active * sp2c active + spc active * spc active
    - coeff * spc active * sp2c active
  ({ g with
      s_prev := spc
      s_prev2 := sp2c
      totalpower := tpc
      n_total := n_total
      active := active
      n := nc },
    power / (tpc active + 1 / 10000000) / (nc active : α))

/-- The state after feeding a list of samples, one `filter` call each, in
order (as the input callback in `main` does). -/
def runState {α : Type} [Field α] (cosf : α → α) (g : Goertzel α) :
    List α → Goertzel α
  | [] => g
  | x :: xs => runState cosf (Goertzel.filter cosf g x).1 xs

/-- The list of values returned by successive `filter` calls on a list of
samples. -/
def outputs {α : Type} [Field α] (cosf : α → α) (g : Goertzel α) :
    List α → List α
  | [] => []
  | x :: xs => (Goertzel.filter cosf g x).2 :: outputs cosf (Goertzel.filter cosf g x).1 xs

/-- Slot `i` is reset during call `t` (1-indexed) of the run: the call exists
and leaves slot `i`'s sample counter at zero.  The counter is incremented at
the start of every call, so it is zero after a call exactly when the
reset branch fired in that call. -/
def resetAt {α : Type} [Field α] (cosf : α → α) (g : Goertzel α)
    (xs : List α) (t i : ℕ) : Prop :=
  0 < t ∧ t ≤ xs.length ∧ (runState cosf g (xs.take t)).n i = 0

/-- The counter fragment of a `Goertzel` state: the two per-slot sample
counters and the total sample count.  Their evolution in `filter` does not
depend on any of the `f32` fields. -/
structure CState where
  n0 : ℕ
  n1 : ℕ
  t : ℕ

/-- Projection of a `Goertzel` state onto its counters. -/
def counters {α : Type} (g : Goertzel α) : CState :=
  { n0 := g.n 0, n1 := g.n 1, t := g.n_total }

/-- One `filter` call, restricted to the counters: increment both slot
counters and the total, recompute `active`, and reset the stale slot's
counter when it has reached `1000`. -/
def cstep (c : CState) : CState :=
  let t := c.t + 1
  let active := (t / 1000) &&& 1
  let m0 := c.n0 + 1
  let m1 := c.n1 + 1
  if active = 0 then { n0 := m0, n1 := if 1000 ≤ m1 then 0 else m1, t := t }
  else { n0 := if 1000 ≤ m0 then 0 else m0, n1 := m1, t := t }

/-- Iterate `cstep` a given number of times. -/
def crun (c : CState) : ℕ → CState
  | 0 => c
  | k + 1 => cstep (crun c k)

/-- Closed form of slot 0's counter after `t` calls from the initial state:
`t` until the first reset at call `1000`, then `(t + 1000) % 2000`. -/
def goodN0 (t : ℕ) : ℕ := if t < 1000 then t else (t + 1000) % 2000

/-- The counters of a `filter` post-state are `cstep` of the counters of the
pre-state: the counter bookkeeping is independent of the `f32` fields, the
sample, and the cosine intrinsic. -/
theorem counters_filter {α : Type} [Field α] (cosf : α → α) (g : Goertzel α)
    (x : α) : counters (Goertzel.filter cosf g x).1 = cstep (counters g) := by
  have h : ((g.n_total + 1) / 1000) &&& 1 = 0 ∨ ((g.n_total + 1) / 1000) &&& 1 = 1 := by
    rw [Nat.and_one_is_mod]; omega
  rcases h with h | h <;>
    simp [Goertzel.filter, cstep, counters, h, Function.update] <;>
    split <;> simp_all

/-- Iterating `cstep` commutes with one leading step. -/
theorem crun_cstep (c : CState) (k : ℕ) : crun (cstep c) k = crun c (k + 1) := by
  induction k with
  | zero => rfl
  | succ k ih => rw [crun, ih]; rfl

/-- Counters of a run are `crun` at the length of the input. -/
theorem counters_runState {α : Type} [Field α] (cosf : α → α) (g : Goertzel α)
    (xs : List α) :
    counters (runState cosf g xs) = crun (counters g) xs.length := by
  induction xs generalizing g with
  | nil => rfl
  | cons x xs ih =>
      rw [runState, ih, counters_filter, List.length_cons, crun_cstep]

/-- Closed form of the counter trajectory from the initial all-zero state:
after `k` calls the total is `k`, slot 0's counter is `goodN0 k` and slot 1's
counter is `k % 2000`. -/
theorem crun_cinit (k : ℕ) :
    crun { n0 := 0, n1 := 0, t := 0 } k =
      { n0 := goodN0 k, n1 := k % 2000, t := k } := by
  induction k with
  | zero => simp [crun, goodN0]
  | succ k ih =>
      rw [crun, ih]
      simp only [cstep, goodN0, Nat.and_one_is_mod]
      split_ifs <;> simp only [CState.mk.injEq, true_and, and_true] <;> omega

/-- Counters after running any sample list from a freshly constructed
estimator. -/
theorem run_new_counters {α : Type} [Field α] (cosf : α → α) (f fs : α)
    (xs : List α) :
    counters (runState cosf (Goertzel.new f fs) xs) =
      { n0 := goodN0 xs.length, n1 := xs.length % 2000, t := xs.length } := by
  rw [counters_runState]
  exact crun_cinit xs.length

/-- Slot 0's sample counter after a run from a fresh estimator. -/
theorem run_new_n0 {α : Type} [Field α] (cosf : α → α) (f fs : α)
    (xs : List α) :
    (runState cosf (Goertzel.new f fs) xs).n 0 = goodN0 xs.length :=
  congrArg CState.n0 (run_new_counters cosf f fs xs)

/-- Slot 1's sample counter after a run from a fresh estimator. -/
theorem run_new_n1 {α : Type} [Field α] (cosf : α → α) (f fs : α)
    (xs : List α) :
    (runState cosf (Goertzel.new f fs) xs).n 1 = xs.length % 2000 :=
  congrArg CState.n1 (run_new_counters cosf f fs xs)

/-- The total sample count after a run from a fresh estimator. -/
theorem run_new_ntotal {α : Type} [Field α] (cosf : α → α) (f fs : α)
    (xs : List α) :
    (runState cosf (Goertzel.new f fs) xs).n_total = xs.length :=
  congrArg CState.t (run_new_counters cosf f fs xs)

/-- One `filter` call never writes `freq`, `samplef`, `double`, `power` or `s`. -/
theorem filter_frame {α : Type} [Field α] (cosf : α → α) (g : Goertzel α)
    (x : α) :
    (Goertzel.filter cosf g x).1.freq = g.freq ∧
    (Goertzel.filter cosf g x).1.samplef = g.samplef ∧
    (Goertzel.filter cosf g x).1.double = g.double ∧
    (Goertzel.filter cosf g x).1.power = g.power ∧
    (Goertzel.filter cosf g x).1.s = g.s :=
  ⟨rfl, rfl, rfl, rfl, rfl⟩

/-- The value produced by one `filter` call, written in terms of the fields
of the post-state: the resonator power of the active slot, normalized by its
accumulated energy (guarded by `1e-7`) and its sample counter. -/
theorem filter_out {α : Type} [Field α] (cosf : α → α) (g : Goertzel α)
    (x : α) :
    (Goertzel.filter cosf g x).2 =
      ((Goertzel.filter cosf g x).1.s_prev2 (Goertzel.filter cosf g x).1.active *
          (Goertzel.filter cosf g x).1.s_prev2 (Goertzel.filter cosf g x).1.active +
        (Goertzel.filter cosf g x).1.s_prev (Goertzel.filter cosf g x).1.active *
          (Goertzel.filter cosf g x).1.s_prev (Goertzel.filter cosf g x).1.active -
        coeffOf cosf g.freq g.samplef *
          (Goertzel.filter cosf g x).1.s_prev (Goertzel.filter cosf g x).1.active *
          (Goertzel.filter cosf g x).1.s_prev2 (Goertzel.filter cosf g x).1.active) /
      ((Goertzel.filter cosf g x).1.totalpower (Goertzel.filter cosf g x).1.active +
        1 / 10000000) /
      (((Goertzel.filter cosf g x).1.n (Goertzel.filter cosf g x).1.active : α)) :=
  rfl

/-- The `active` index recomputed by one `filter` call is
`(n_total / 1000) &&& 1` for the incremented total. -/
theorem filter_active {α : Type} [Field α] (cosf : α → α) (g : Goertzel α)
    (x : α) :
    (Goertzel.filter cosf g x).1.active = ((g.n_total + 1) / 1000) &&& 1 :=
  rfl

/-- In one `filter` call, writing `stale` for `1 - active` (the recomputed
`active`), the stale slot's counter ends at zero exactly when its
incremented value has reached `1000`. -/
theorem filter_reset_iff {α : Type} [Field α] (cosf : α → α) (g : Goertzel α)
    (x : α) :
    (Goertzel.filter cosf g x).1.n (1 - (((g.n_total + 1) / 1000) &&& 1)) = 0 ↔
      1000 ≤ g.n (1 - (((g.n_total + 1) / 1000) &&& 1)) + 1 := by
  have ha : ((g.n_total + 1) / 1000) &&& 1 = 0 ∨ ((g.n_total + 1) / 1000) &&& 1 = 1 := by
    rw [Nat.and_one_is_mod]; omega
  rcases ha with h | h <;>
    simp [Goertzel.filter, h, Function.update] <;> split_ifs <;> simp_all

/-- When the stale slot's incremented counter has reached `1000`, the call
zeroes its recursion values and counter, and its accumulated energy is
re-seeded with just the current sample's energy. -/
theorem filter_reset_fields {α : Type} [Field α] (cosf : α → α)
    (g : Goertzel α) (x : α)
    (h : 1000 ≤ g.n (1 - (((g.n_total + 1) / 1000) &&& 1)) + 1) :
    (Goertzel.filter cosf g x).1.s_prev (1 - (((g.n_total + 1) / 1000) &&& 1)) = 0 ∧
    (Goertzel.filter cosf g x).1.s_prev2 (1 - (((g.n_total + 1) / 1000) &&& 1)) = 0 ∧
    (Goertzel.filter cosf g x).1.n (1 - (((g.n_total + 1) / 1000) &&& 1)) = 0 ∧
    (Goertzel.filter cosf g x).1.totalpower (1 - (((g.n_total + 1) / 1000) &&& 1)) =
      x * x := by
  have ha : ((g.n_total + 1) / 1000) &&& 1 = 0 ∨ ((g.n_total + 1) / 1000) &&& 1 = 1 := by
    rw [Nat.and_one_is_mod]; omega
  rcases ha with h' | h' <;> rw [h'] at h ⊢ <;>
    simp [Goertzel.filter, h', Function.update] <;> split_ifs <;> simp_all

/-- When the stale slot's incremented counter is still below `1000`, no
reset happens: the counter keeps its incremented value. -/
theorem filter_no_reset {α : Type} [Field α] (cosf : α → α) (g : Goertzel α)
    (x : α)
    (h : g.n (1 - (((g.n_total + 1) / 1000) &&& 1)) + 1 < 1000) :
    (Goertzel.filter cosf g x).1.n (1 - (((g.n_total + 1) / 1000) &&& 1)) =
      g.n (1 - (((g.n_total + 1) / 1000) &&& 1)) + 1 := by
  have ha : ((g.n_total + 1) / 1000) &&& 1 = 0 ∨ ((g.n_total + 1) / 1000) &&& 1 = 1 := by
    rw [Nat.and_one_is_mod]; omega
  rcases ha with h' | h' <;> rw [h'] at h ⊢ <;>
    simp [Goertzel.filter, h', Function.update] <;> split_ifs <;> simp_all <;> omega

/-- The accumulated-energy fields stay non-negative across a `filter` call:
a slot's energy either keeps accumulating squares or is reset to zero and
re-seeded with a square. -/
theorem filter_tp_nonneg (cosf : ℝ → ℝ) (g : Goertzel ℝ) (x : ℝ)
    (hg : ∀ i, 0 ≤ g.totalpower i) :
    ∀ i, 0 ≤ (Goertzel.filter cosf g x).1.totalpower i := by
  intro i
  have hx : 0 ≤ x * x := mul_self_nonneg x
  have ha : ((g.n_total + 1) / 1000) &&& 1 = 0 ∨ ((g.n_total + 1) / 1000) &&& 1 = 1 := by
    rw [Nat.and_one_is_mod]; omega
  rcases ha with h | h <;>
    simp only [Goertzel.filter, h, Function.update_apply] <;>
    split_ifs <;>
    simp_all [Function.update_apply] <;>
    first
      | positivity
      | linarith [hg i, hg 0, hg 1]

/-- The raw resonator power is non-negative whenever the coefficient lies in
the interval from `-2` to `2`. -/
theorem power_raw_nonneg (c p q : ℝ) (h1 : -2 ≤ c) (h2 : c ≤ 2) :
    0 ≤ q * q + p * p - c * p * q := by
  nlinarith [sq_nonneg (p - q), sq_nonneg (p + q)]

/-- The coefficient the code computes is twice a cosine, hence lies in the
interval from `-2` to `2`. -/
theorem coeffOf_cos_bounds (f fs : ℝ) :
    -2 ≤ coeffOf Real.cos f fs ∧ coeffOf Real.cos f fs ≤ 2 := by
  unfold coeffOf
  constructor <;>
    nlinarith [Real.neg_one_le_cos (2 * (313 / 100) * (f / fs)),
      Real.cos_le_one (2 * (313 / 100) * (f / fs))]

/-- A single `filter` call returns a non-negative value from any state whose
accumulated energies are non-negative. -/
theorem filter_out_nonneg (g : Goertzel ℝ) (x : ℝ)
    (hg : ∀ i, 0 ≤ g.totalpower i) :
    0 ≤ (Goertzel.filter Real.cos g x).2 := by
  rw [filter_out]
  refine div_nonneg (div_nonneg ?_ ?_) (Nat.cast_nonneg _)
  · exact power_raw_nonneg _ _ _ (coeffOf_cos_bounds g.freq g.samplef).1
      (coeffOf_cos_bounds g.freq g.samplef).2
  · have h := filter_tp_nonneg Real.cos g x hg
      ((Goertzel.filter Real.cos g x).1.active)
    linarith

/-- All values returned along a run are non-negative, given non-negative
accumulated energies at the start. -/
theorem outputs_nonneg (xs : List ℝ) :
    ∀ g : Goertzel ℝ, (∀ i, 0 ≤ g.totalpower i) →
      ∀ y ∈ outputs Real.cos g xs, 0 ≤ y := by
  induction xs with
  | nil => intro g _ y hy; simp [outputs] at hy
  | cons x xs ih =>
      intro g hg y hy
      rw [outputs, List.mem_cons] at hy
      rcases hy with hy | hy
      · exact hy ▸ filter_out_nonneg g x hg
      · exact ih _ (filter_tp_nonneg Real.cos g x hg) y hy

/-- Feeding the sample `0` to a state whose recursion values and energies
are all zero keeps them zero and returns exactly `0`. -/
theorem filter_zero (cosf : ℝ → ℝ) (g : Goertzel ℝ)
    (h1 : ∀ i, g.s_prev i = 0) (h2 : ∀ i, g.s_prev2 i = 0)
    (h3 : ∀ i, g.totalpower i = 0) :
    (∀ i, (Goertzel.filter cosf g 0).1.s_prev i = 0) ∧
    (∀ i, (Goertzel.filter cosf g 0).1.s_prev2 i = 0) ∧
    (∀ i, (Goertzel.filter cosf g 0).1.totalpower i = 0) ∧
    (Goertzel.filter cosf g 0).2 = 0 := by
  refine ⟨fun i => ?_, fun i => ?_, fun i => ?_, ?_⟩ <;>
    simp only [Goertzel.filter, Function.update_apply, h1, h2, h3,
      mul_zero, zero_mul, add_zero, zero_add, sub_zero, zero_sub, neg_zero,
      zero_div] <;>
    split_ifs <;>
    simp_all [Function.update_apply, h1, h2, h3]

/-- Running any number of zero samples from a fresh estimator keeps all
recursion values and energies at zero and outputs exactly zero each call. -/
theorem run_zero_aux (cosf : ℝ → ℝ) (k : ℕ) :
    ∀ g : Goertzel ℝ, (∀ i, g.s_prev i = 0) → (∀ i, g.s_prev2 i = 0) →
      (∀ i, g.totalpower i = 0) →
      (∀ i, (runState cosf g (List.replicate k 0)).totalpower i = 0) ∧
      outputs cosf g (List.replicate k 0) = List.replicate k 0 := by
  induction k with
  | zero => intro g _ _ h3; exact ⟨h3, rfl⟩
  | succ k ih =>
      intro g h1 h2 h3
      obtain ⟨z1, z2, z3, zout⟩ := filter_zero cosf g h1 h2 h3
      obtain ⟨w1, w2⟩ := ih (Goertzel.filter cosf g 0).1 z1 z2 z3
      rw [List.replicate_succ, runState, outputs, w2, zout]
      exact ⟨w1, rfl⟩

/-- C1: the claim states that on every call the resonator coefficient is
`2 * cos(2π * target_frequency / sample_rate)` with the exact value of π.
The code instead computes `coeff = 2.*(2.*3.13*normalizedfreq).cos()`,
using the literal `3.13` in place of π.  At the parameters used in `main`
(`freq = 440`, `samplef = 44000`) the two coefficients are provably
different, so the filter is detuned exactly as the spec's open question
suspects. -/
theorem c1_coeff_is_313_not_pi :
    coeffOf Real.cos (440 : ℝ) 44000 ≠
      2 * Real.cos (2 * Real.pi * ((440 : ℝ) / 44000)) := by
  unfold coeffOf
  intro hEq
  have hc : Real.cos (2 * (313 / 100) * ((440 : ℝ) / 44000)) =
      Real.cos (2 * Real.pi * ((440 : ℝ) / 44000)) :=
    mul_left_cancel₀ two_ne_zero hEq
  have ha : 2 * (313 / 100) * ((440 : ℝ) / 44000) ∈ Set.Icc 0 Real.pi := by
    constructor <;> nlinarith [Real.pi_gt_d2]
  have hb : 2 * Real.pi * ((440 : ℝ) / 44000) ∈ Set.Icc 0 Real.pi := by
    constructor <;> nlinarith [Real.pi_gt_d2]
  have hargs := Real.injOn_cos ha hb hc
  nlinarith [Real.pi_gt_d2]

/-- C5: the value returned by each `filter` call equals
`(prev2[active]^2 + prev[active]^2 - coeff*prev[active]*prev2[active])
 / (accumulated_energy[active] + 1e-7) / sample_count[active]`,
where all slot fields are those of the state after this call's recursion
update, reset check and energy accumulation, and `coeff` is the
coefficient computed by this call. -/
theorem c5_power_formula (g : Goertzel ℝ) (x : ℝ) :
    (Goertzel.filter Real.cos g x).2 =
      ((Goertzel.filter Real.cos g x).1.s_prev2 (Goertzel.filter Real.cos g x).1.active *
          (Goertzel.filter Real.cos g x).1.s_prev2 (Goertzel.filter Real.cos g x).1.active +
        (Goertzel.filter Real.cos g x).1.s_prev (Goertzel.filter Real.cos g x).1.active *
          (Goertzel.filter Real.cos g x).1.s_prev (Goertzel.filter Real.cos g x).1.active -
        coeffOf Real.cos g.freq g.samplef *
          (Goertzel.filter Real.cos g x).1.s_prev (Goertzel.filter Real.cos g x).1.active *
          (Goertzel.filter Real.cos g x).1.s_prev2 (Goertzel.filter Real.cos g x).1.active) /
      ((Goertzel.filter Real.cos g x).1.totalpower (Goertzel.filter Real.cos g x).1.active +
        1 / 10000000) /
      (((Goertzel.filter Real.cos g x).1.n (Goertzel.filter Real.cos g x).1.active : ℝ)) :=
  filter_out Real.cos g x

/-- C6: from a fresh estimator with valid parameters, feeding only zero
samples returns exactly `0` on every call, and both slots' accumulated
energies stay at `0` (the `1e-7` guard prevents any division by zero). -/
theorem c6_silence (f fs : ℝ) (h1 : 0 < f) (h2 : f < fs / 2) (k : ℕ) :
    outputs Real.cos (Goertzel.new f fs) (List.replicate k 0) =
      List.replicate k 0 ∧
    ∀ i, (runState Real.cos (Goertzel.new f fs) (List.replicate k 0)).totalpower i = 0 := by
  obtain ⟨w1, w2⟩ := run_zero_aux Real.cos k (Goertzel.new f fs)
    (fun _ => rfl) (fun _ => rfl) (fun _ => rfl)
  exact ⟨w2, w1⟩

/-- Witness for C6 at `freq = 440`, `samplef = 44100`, three zero samples. -/
theorem c6_silence_witness :
    (0 : ℝ) < 440 ∧ (440 : ℝ) < 44100 / 2 ∧
    (outputs Real.cos (Goertzel.new (440 : ℝ) 44100) (List.replicate 3 0) =
        List.replicate 3 0 ∧
      ∀ i, (runState Real.cos (Goertzel.new (440 : ℝ) 44100)
        (List.replicate 3 0)).totalpower i = 0) :=
  ⟨by norm_num, by norm_num, c6_silence 440 44100 (by norm_num) (by norm_num) 3⟩

/-- C7: two estimators constructed with the same parameters and fed the
same sample list produce identical output sequences; `filter` is a
deterministic function of the constructed state and the inputs. -/
theorem c7_determinism (f fs : ℝ) (xs : List ℝ) (g₁ g₂ : Goertzel ℝ)
    (h₁ : g₁ = Goertzel.new f fs) (h₂ : g₂ = Goertzel.new f fs) :
    outputs Real.cos g₁ xs = outputs Real.cos g₂ xs := by
  rw [h₁, h₂]

/-- Witness for C7: two copies constructed with `(440, 44100)` on a small
sample list. -/
theorem c7_determinism_witness :
    Goertzel.new (440 : ℝ) 44100 = Goertzel.new (440 : ℝ) 44100 ∧
    outputs Real.cos (Goertzel.new (440 : ℝ) 44100) [1, 0] =
      outputs Real.cos (Goertzel.new (440 : ℝ) 44100) [1, 0] :=
  ⟨rfl, c7_determinism 440 44100 [1, 0] _ _ rfl rfl⟩

/-- C8 counterexample: the claim states that construction signals a
`ConfigurationError` (rather than returning a usable estimator) when
`target_frequency` is outside `(0, sample_rate/2)`.  But `Goertzel::new`
has return type `Self` and performs no check: with the invalid frequency
`-1` it returns an ordinary initialized estimator, and `filter` runs on it
and returns a value. -/
theorem c8_counterexample :
    (Goertzel.new (-1 : ℝ) 44000).freq = -1 ∧
    (Goertzel.new (-1 : ℝ) 44000).samplef = 44000 ∧
    (Goertzel.new (-1 : ℝ) 44000).n_total = 0 ∧
    (Goertzel.filter Real.cos (Goertzel.new (-1 : ℝ) 44000) 0).2 = 0 := by
  refine ⟨rfl, rfl, rfl, ?_⟩
  exact (filter_zero Real.cos (Goertzel.new (-1 : ℝ) 44000)
    (fun _ => rfl) (fun _ => rfl) (fun _ => rfl)).2.2.2

/-- C8 amended: construction never signals any error; for every
`(target_frequency, sample_rate)`, valid or not, `new` returns the
all-zero initial estimator with the two parameters stored. -/
theorem c8_amended_no_validation (f fs : ℝ) :
    (Goertzel.new f fs).freq = f ∧
    (Goertzel.new f fs).samplef = fs ∧
    (Goertzel.new f fs).n_total = 0 ∧
    (Goertzel.new f fs).active = 0 ∧
    (Goertzel.new f fs).double = 0 ∧
    (Goertzel.new f fs).power = 0 ∧
    (Goertzel.new f fs).s = 0 ∧
    (∀ i, (Goertzel.new f fs).s_prev i = 0) ∧
    (∀ i, (Goertzel.new f fs).s_prev2 i = 0) ∧
    (∀ i, (Goertzel.new f fs).totalpower i = 0) ∧
    (∀ i, (Goertzel.new f fs).n i = 0) :=
  ⟨rfl, rfl, rfl, rfl, rfl, rfl, rfl, fun _ => rfl, fun _ => rfl,
    fun _ => rfl, fun _ => rfl⟩

/-- C9: every value returned along a run from a fresh estimator is
non-negative, for samples in the nominal range.  (In the real-valued model
the sample bound is not even needed: energies are sums of squares, the
coefficient is twice a cosine, and the raw power is a positive
semidefinite form.) -/
theorem c9_output_nonneg (f fs : ℝ) (xs : List ℝ)
    (hb : ∀ x ∈ xs, -1 ≤ x ∧ x ≤ 1) :
    ∀ y ∈ outputs Real.cos (Goertzel.new f fs) xs, 0 ≤ y :=
  outputs_nonneg xs (Goertzel.new f fs) (fun _ => le_refl 0)

/-- Witness for C9 on a concrete in-range sample list. -/
theorem c9_output_nonneg_witness :
    (∀ x ∈ [(0 : ℝ), 1 / 2, -1], -1 ≤ x ∧ x ≤ 1) ∧
    (∀ y ∈ outputs Real.cos (Goertzel.new (440 : ℝ) 44100) [0, 1 / 2, -1], 0 ≤ y) :=
  ⟨by norm_num, c9_output_nonneg 440 44100 [0, 1 / 2, -1] (by norm_num)⟩

/-- A whole run never writes `freq`, `samplef`, `double`, `power` or `s`. -/
theorem run_frame (cosf : ℝ → ℝ) (xs : List ℝ) :
    ∀ g : Goertzel ℝ,
      (runState cosf g xs).freq = g.freq ∧
      (runState cosf g xs).samplef = g.samplef ∧
      (runState cosf g xs).double = g.double ∧
      (runState cosf g xs).power = g.power ∧
      (runState cosf g xs).s = g.s := by
  induction xs with
  | nil => intro g; exact ⟨rfl, rfl, rfl, rfl, rfl⟩
  | cons x xs ih => intro g; exact ih (Goertzel.filter cosf g x).1

/-- C10: `filter` never writes `freq`, `samplef`, `double`, `power` or `s`;
along any run from a fresh estimator the parameters keep their constructed
values and `double`, `power`, `s` stay at their initial `0.0` forever
(they are written only by `new`). -/
theorem c10_unmodified_fields (g : Goertzel ℝ) (x : ℝ) (f fs : ℝ)
    (xs : List ℝ) :
    ((Goertzel.filter Real.cos g x).1.freq = g.freq ∧
      (Goertzel.filter Real.cos g x).1.samplef = g.samplef ∧
      (Goertzel.filter Real.cos g x).1.double = g.double ∧
      (Goertzel.filter Real.cos g x).1.power = g.power ∧
      (Goertzel.filter Real.cos g x).1.s = g.s) ∧
    ((runState Real.cos (Goertzel.new f fs) xs).freq = f ∧
      (runState Real.cos (Goertzel.new f fs) xs).samplef = fs ∧
      (runState Real.cos (Goertzel.new f fs) xs).double = 0 ∧
      (runState Real.cos (Goertzel.new f fs) xs).power = 0 ∧
      (runState Real.cos (Goertzel.new f fs) xs).s = 0) := by
  exact ⟨filter_frame Real.cos g x, run_frame Real.cos xs (Goertzel.new f fs)⟩

/-- C2 counterexample: the claim states no slot's `sample_count` ever grows
beyond `W = 1000` before being reset.  But after 1500 samples from a fresh
estimator, slot 1's counter is 1500: it passed `W` without being reset
(slot 1 is not reset until call 2000, at counter value 2000). -/
theorem c2_counterexample :
    1000 <
      (runState Real.cos (Goertzel.new (440 : ℝ) 44000)
        (List.replicate 1500 0)).n 1 := by
  rw [run_new_n1, List.length_replicate]
  norm_num

/-- C2 amended: a slot's stored counter never exceeds `2W - 1 = 1999`, and
at the moment a slot is reset its just-incremented counter is exactly
`2W = 2000` — except the very first reset (slot 0 at call `1000`), where it
is exactly `W = 1000`.  Counters do grow past `W` between resets. -/
theorem c2_amended_count_bounds (f fs : ℝ) (xs : List ℝ) (t i : ℕ)
    (hi : i ≤ 1) (ht : t ≤ xs.length) :
    (runState Real.cos (Goertzel.new f fs) (xs.take t)).n i ≤ 1999 ∧
    (resetAt Real.cos (Goertzel.new f fs) xs t i →
      (runState Real.cos (Goertzel.new f fs) (xs.take (t - 1))).n i + 1 = 2000 ∨
        (i = 0 ∧ t = 1000 ∧
          (runState Real.cos (Goertzel.new f fs) (xs.take (t - 1))).n i + 1 = 1000)) := by
  have e1 : (xs.take t).length = t := by rw [List.length_take]; omega
  have e2 : (xs.take (t - 1)).length = t - 1 := by rw [List.length_take]; omega
  interval_cases i <;>
    simp only [resetAt, run_new_n0, run_new_n1, e1, e2, goodN0, true_and,
      and_true] <;>
    (try split_ifs) <;> omega

/-- Witness for C2 amended, at slot 1, call 2000 of a 2000-zero-sample run. -/
theorem c2_amended_count_bounds_witness :
    (1 : ℕ) ≤ 1 ∧ 2000 ≤ (List.replicate 2000 (0 : ℝ)).length ∧
    ((runState Real.cos (Goertzel.new (440 : ℝ) 44000)
        ((List.replicate 2000 (0 : ℝ)).take 2000)).n 1 ≤ 1999 ∧
      (resetAt Real.cos (Goertzel.new (440 : ℝ) 44000)
          (List.replicate 2000 (0 : ℝ)) 2000 1 →
        (runState Real.cos (Goertzel.new (440 : ℝ) 44000)
            ((List.replicate 2000 (0 : ℝ)).take (2000 - 1))).n 1 + 1 = 2000 ∨
          (1 = 0 ∧ 2000 = 1000 ∧
            (runState Real.cos (Goertzel.new (440 : ℝ) 44000)
              ((List.replicate 2000 (0 : ℝ)).take (2000 - 1))).n 1 + 1 = 1000))) :=
  ⟨by norm_num, by rw [List.length_replicate],
    c2_amended_count_bounds 440 44000 (List.replicate 2000 (0 : ℝ)) 2000 1
      (by norm_num) (by rw [List.length_replicate])⟩

/-- C3 counterexample: the claim states the two slots' reset schedules are
offset by `W/2 = 500` samples.  In fact slot 0 is first reset at call 1000
(its counter is 0 afterwards), while slot 1 is not reset at call 500 nor
at call 1500 (counters 500 and 1500), and is first reset at call 2000: the
two schedules are offset by `W = 1000`, not `W/2`. -/
theorem c3_counterexample :
    (runState Real.cos (Goertzel.new (440 : ℝ) 44000)
        (List.replicate 1000 0)).n 0 = 0 ∧
    (runState Real.cos (Goertzel.new (440 : ℝ) 44000)
        (List.replicate 500 0)).n 1 = 500 ∧
    (runState Real.cos (Goertzel.new (440 : ℝ) 44000)
        (List.replicate 1500 0)).n 1 = 1500 ∧
    (runState Real.cos (Goertzel.new (440 : ℝ) 44000)
        (List.replicate 2000 0)).n 1 = 0 := by
  refine ⟨?_, ?_, ?_, ?_⟩
  · rw [run_new_n0, List.length_replicate]; simp [goodN0]
  · rw [run_new_n1, List.length_replicate]
  · rw [run_new_n1, List.length_replicate]
  · rw [run_new_n1, List.length_replicate]

/-- C3 amended: the two reset schedules are offset by `W = 1000` samples
(slot 0 is reset exactly at calls `t ≡ 1000 (mod 2000)`, slot 1 exactly at
calls `t ≡ 0 (mod 2000)`, `t > 0`), and from sample index 501 onwards at
least one slot has accumulated strictly more than `W/2 = 500` samples. -/
theorem c3_amended_offset (f fs : ℝ) (xs : List ℝ) (t : ℕ)
    (ht : t ≤ xs.length) :
    (501 ≤ t →
      500 < (runState Real.cos (Goertzel.new f fs) (xs.take t)).n 0 ∨
      500 < (runState Real.cos (Goertzel.new f fs) (xs.take t)).n 1) ∧
    (resetAt Real.cos (Goertzel.new f fs) xs t 0 ↔ t % 2000 = 1000) ∧
    (resetAt Real.cos (Goertzel.new f fs) xs t 1 ↔ 0 < t ∧ t % 2000 = 0) := by
  simp only [resetAt, run_new_n0, run_new_n1, List.length_take, goodN0]
  split_ifs <;> omega

/-- Witness for C3 amended at call 1000 of a 2000-zero-sample run. -/
theorem c3_amended_offset_witness :
    1000 ≤ (List.replicate 2000 (0 : ℝ)).length ∧
    ((501 ≤ 1000 →
        500 < (runState Real.cos (Goertzel.new (440 : ℝ) 44000)
            ((List.replicate 2000 (0 : ℝ)).take 1000)).n 0 ∨
        500 < (runState Real.cos (Goertzel.new (440 : ℝ) 44000)
            ((List.replicate 2000 (0 : ℝ)).take 1000)).n 1) ∧
      (resetAt Real.cos (Goertzel.new (440 : ℝ) 44000)
          (List.replicate 2000 (0 : ℝ)) 1000 0 ↔ 1000 % 2000 = 1000) ∧
      (resetAt Real.cos (Goertzel.new (440 : ℝ) 44000)
          (List.replicate 2000 (0 : ℝ)) 1000 1 ↔ 0 < 1000 ∧ 1000 % 2000 = 0)) :=
  ⟨by rw [List.length_replicate]; norm_num,
    c3_amended_offset 440 44000 (List.replicate 2000 (0 : ℝ)) 1000
      (by rw [List.length_replicate]; norm_num)⟩

/-- C4: on each call, with `active = (n_total / 1000) mod 2` for the
incremented total and `stale = 1 - active`, the stale slot is reset exactly
when its incremented counter has reached `W = 1000` — never below `W` — and
a reset zeroes its recursion values and counter (its energy is re-seeded
with just this sample's square, added after the reset).  Along a run from a
fresh estimator, two resets of the same slot are at least `W` calls apart,
so each slot is reset at most once per window of `W` samples. -/
theorem c4_reset_rule (g : Goertzel ℝ) (x : ℝ) (f fs : ℝ) (xs : List ℝ)
    (i t t' : ℕ) (hi : i ≤ 1) :
    ((Goertzel.filter Real.cos g x).1.active = ((g.n_total + 1) / 1000) % 2) ∧
    ((Goertzel.filter Real.cos g x).1.n
        (1 - (((g.n_total + 1) / 1000) &&& 1)) = 0 ↔
      1000 ≤ g.n (1 - (((g.n_total + 1) / 1000) &&& 1)) + 1) ∧
    (1000 ≤ g.n (1 - (((g.n_total + 1) / 1000) &&& 1)) + 1 →
      (Goertzel.filter Real.cos g x).1.s_prev
          (1 - (((g.n_total + 1) / 1000) &&& 1)) = 0 ∧
        (Goertzel.filter Real.cos g x).1.s_prev2
          (1 - (((g.n_total + 1) / 1000) &&& 1)) = 0 ∧
        (Goertzel.filter Real.cos g x).1.n
          (1 - (((g.n_total + 1) / 1000) &&& 1)) = 0 ∧
        (Goertzel.filter Real.cos g x).1.totalpower
          (1 - (((g.n_total + 1) / 1000) &&& 1)) = x * x) ∧
    (g.n (1 - (((g.n_total + 1) / 1000) &&& 1)) + 1 < 1000 →
      (Goertzel.filter Real.cos g x).1.n
          (1 - (((g.n_total + 1) / 1000) &&& 1)) =
        g.n (1 - (((g.n_total + 1) / 1000) &&& 1)) + 1) ∧
    (resetAt Real.cos (Goertzel.new f fs) xs t i →
      resetAt Real.cos (Goertzel.new f fs) xs t' i → t < t' → t + 1000 ≤ t') := by
  refine ⟨?_, filter_reset_iff Real.cos g x, filter_reset_fields Real.cos g x,
    filter_no_reset Real.cos g x, ?_⟩
  · rw [filter_active, Nat.and_one_is_mod]
  · intro h1 h2 hlt
    obtain ⟨ht0, htl, hz⟩ := h1
    obtain ⟨ht0', htl', hz'⟩ := h2
    have e1 : (xs.take t).length = t := by rw [List.length_take]; omega
    have e1' : (xs.take t').length = t' := by rw [List.length_take]; omega
    interval_cases i
    · rw [run_new_n0, e1] at hz
      rw [run_new_n0, e1'] at hz'
      simp only [goodN0] at hz hz'
      split_ifs at hz hz' <;> omega
    · rw [run_new_n1, e1] at hz
      rw [run_new_n1, e1'] at hz'
      omega

/-- Witness for C4 on a fresh estimator, one sample, slot 0, empty run. -/
theorem c4_reset_rule_witness :
    (0 : ℕ) ≤ 1 ∧
    (((Goertzel.filter Real.cos (Goertzel.new (440 : ℝ) 44000) 1).1.active =
        (((Goertzel.new (440 : ℝ) 44000).n_total + 1) / 1000) % 2) ∧
      ((Goertzel.filter Real.cos (Goertzel.new (440 : ℝ) 44000) 1).1.n
          (1 - ((((Goertzel.new (440 : ℝ) 44000).n_total + 1) / 1000) &&& 1)) = 0 ↔
        1000 ≤ (Goertzel.new (440 : ℝ) 44000).n
            (1 - ((((Goertzel.new (440 : ℝ) 44000).n_total + 1) / 1000) &&& 1)) + 1) ∧
      (1000 ≤ (Goertzel.new (440 : ℝ) 44000).n
          (1 - ((((Goertzel.new (440 : ℝ) 44000).n_total + 1) / 1000) &&& 1)) + 1 →
        (Goertzel.filter Real.cos (Goertzel.new (440 : ℝ) 44000) 1).1.s_prev
            (1 - ((((Goertzel.new (440 : ℝ) 44000).n_total + 1) / 1000) &&& 1)) = 0 ∧
          (Goertzel.filter Real.cos (Goertzel.new (440 : ℝ) 44000) 1).1.s_prev2
            (1 - ((((Goertzel.new (440 : ℝ) 44000).n_total + 1) / 1000) &&& 1)) = 0 ∧
          (Goertzel.filter Real.cos (Goertzel.new (440 : ℝ) 44000) 1).1.n
            (1 - ((((Goertzel.new (440 : ℝ) 44000).n_total + 1) / 1000) &&& 1)) = 0 ∧
          (Goertzel.filter Real.cos (Goertzel.new (440 : ℝ) 44000) 1).1.totalpower
            (1 - ((((Goertzel.new (440 : ℝ) 44000).n_total + 1) / 1000) &&& 1)) =
              1 * 1) ∧
      ((Goertzel.new (440 : ℝ) 44000).n
          (1 - ((((Goertzel.new (440 : ℝ) 44000).n_total + 1) / 1000) &&& 1)) + 1 < 1000 →
        (Goertzel.filter Real.cos (Goertzel.new (440 : ℝ) 44000) 1).1.n
            (1 - ((((Goertzel.new (440 : ℝ) 44000).n_total + 1) / 1000) &&& 1)) =
          (Goertzel.new (440 : ℝ) 44000).n
            (1 - ((((Goertzel.new (440 : ℝ) 44000).n_total + 1) / 1000) &&& 1)) + 1) ∧
      (resetAt Real.cos (Goertzel.new (440 : ℝ) 44000) ([] : List ℝ) 0 0 →
        resetAt Real.cos (Goertzel.new (440 : ℝ) 44000) ([] : List ℝ) 0 0 →
          0 < 0 → 0 + 1000 ≤ 0)) :=
  ⟨by norm_num,
    c4_reset_rule (Goertzel.new (440 : ℝ) 44000) 1 440 44000 ([] : List ℝ) 0 0 0
      (by norm_num)⟩
